import Mathlib

/-
Verification of `cubes/providers.py` — the logical model provider layer:
bundle assembly (`read_model_metadata_bundle`), metadata merging
(`ModelProvider._merge_metadata`, `ModelProvider.cube_metadata`),
accessors (`cube_options`, `dimension_metadata`) and the metadata
validator (`ModelMetadataValidator`).

The Python values are JSON trees (dicts, lists, strings, numbers,
booleans, None).  We embed them as the inductive type `Json`; Python
dictionaries become ordered association lists with unique keys, with
the dict primitives (`get`, `__setitem__`, `pop`, `update`, `in`)
embedded as explicit functions.  Fallible Python code becomes
`Except PErr`; Python exception classes become `PErr` constructors.
Provider state (`self.metadata` can be mutated in place by
`cube_metadata`) is passed explicitly: `cube_metadata` returns the
provider state next to its result.
-/

namespace Cubes

/-- A JSON / Python value: None, bool, number, string, list, dict. -/
inductive Json where
  | null : Json
  | bool : Bool → Json
  | num : Int → Json
  | str : String → Json
  | arr : List Json → Json
  | obj : List (String × Json) → Json

mutual

/-- Decidable equality of JSON values. -/
def Json.decEq : (a b : Json) → Decidable (a = b)
  | .null, .null => isTrue rfl
  | .bool x, .bool y =>
      if h : x = y then isTrue (by rw [h])
      else isFalse (fun hh => h (by injection hh))
  | .num x, .num y =>
      if h : x = y then isTrue (by rw [h])
      else isFalse (fun hh => h (by injection hh))
  | .str x, .str y =>
      if h : x = y then isTrue (by rw [h])
      else isFalse (fun hh => h (by injection hh))
  | .arr xs, .arr ys =>
      match Json.decEqList xs ys with
      | isTrue h => isTrue (by rw [h])
      | isFalse h => isFalse (fun hh => h (by injection hh))
  | .obj xs, .obj ys =>
      match Json.decEqObj xs ys with
      | isTrue h => isTrue (by rw [h])
      | isFalse h => isFalse (fun hh => h (by injection hh))
  | .null, .bool _ => isFalse (fun h => Json.noConfusion h)
  | .null, .num _ => isFalse (fun h => Json.noConfusion h)
  | .null, .str _ => isFalse (fun h => Json.noConfusion h)
  | .null, .arr _ => isFalse (fun h => Json.noConfusion h)
  | .null, .obj _ => isFalse (fun h => Json.noConfusion h)
  | .bool _, .null => isFalse (fun h => Json.noConfusion h)
  | .bool _, .num _ => isFalse (fun h => Json.noConfusion h)
  | .bool _, .str _ => isFalse (fun h => Json.noConfusion h)
  | .bool _, .arr _ => isFalse (fun h => Json.noConfusion h)
  | .bool _, .obj _ => isFalse (fun h => Json.noConfusion h)
  | .num _, .null => isFalse (fun h => Json.noConfusion h)
  | .num _, .bool _ => isFalse (fun h => Json.noConfusion h)
  | .num _, .str _ => isFalse (fun h => Json.noConfusion h)
  | .num _, .arr _ => isFalse (fun h => Json.noConfusion h)
  | .num _, .obj _ => isFalse (fun h => Json.noConfusion h)
  | .str _, .null => isFalse (fun h => Json.noConfusion h)
  | .str _, .bool _ => isFalse (fun h => Json.noConfusion h)
  | .str _, .num _ => isFalse (fun h => Json.noConfusion h)
  | .str _, .arr _ => isFalse (fun h => Json.noConfusion h)
  | .str _, .obj _ => isFalse (fun h => Json.noConfusion h)
  | .arr _, .null => isFalse (fun h => Json.noConfusion h)
  | .arr _, .bool _ => isFalse (fun h => Json.noConfusion h)
  | .arr _, .num _ => isFalse (fun h => Json.noConfusion h)
  | .arr _, .str _ => isFalse (fun h => Json.noConfusion h)
  | .arr _, .obj _ => isFalse (fun h => Json.noConfusion h)
  | .obj _, .null => isFalse (fun h => Json.noConfusion h)
  | .obj _, .bool _ => isFalse (fun h => Json.noConfusion h)
  | .obj _, .num _ => isFalse (fun h => Json.noConfusion h)
  | .obj _, .str _ => isFalse (fun h => Json.noConfusion h)
  | .obj _, .arr _ => isFalse (fun h => Json.noConfusion h)

/-- Decidable equality of JSON value lists. -/
def Json.decEqList : (a b : List Json) → Decidable (a = b)
  | [], [] => isTrue rfl
  | [], _ :: _ => isFalse (fun h => List.noConfusion h)
  | _ :: _, [] => isFalse (fun h => List.noConfusion h)
  | x :: xs, y :: ys =>
      match Json.decEq x y with
      | isTrue h1 =>
          match Json.decEqList xs ys with
          | isTrue h2 => isTrue (by rw [h1, h2])
          | isFalse h2 => isFalse (fun hh => h2 (by injection hh))
      | isFalse h1 => isFalse (fun hh => h1 (by injection hh))

/-- Decidable equality of JSON key-value binding lists. -/
def Json.decEqObj : (a b : List (String × Json)) → Decidable (a = b)
  | [], [] => isTrue rfl
  | [], _ :: _ => isFalse (fun h => List.noConfusion h)
  | _ :: _, [] => isFalse (fun h => List.noConfusion h)
  | (k, v) :: xs, (k', v') :: ys =>
      if hk : k = k' then
        match Json.decEq v v' with
        | isTrue hv =>
            match Json.decEqObj xs ys with
            | isTrue h2 => isTrue (by rw [hk, hv, h2])
            | isFalse h2 => isFalse (fun hh => h2 (by injection hh))
        | isFalse hv =>
            isFalse (fun hh => hv (by
              injection hh with hp ht
              exact congrArg Prod.snd hp))
      else
        isFalse (fun hh => hk (by
          injection hh with hp ht
          exact congrArg Prod.fst hp))

end

instance : DecidableEq Json := Json.decEq

instance {ε α : Type} [DecidableEq ε] [DecidableEq α] : DecidableEq (Except ε α) :=
  fun a b =>
  match a, b with
  | .ok x, .ok y =>
      if h : x = y then isTrue (by rw [h])
      else isFalse (fun hh => h (by injection hh))
  | .error e, .error e' =>
      if h : e = e' then isTrue (by rw [h])
      else isFalse (fun hh => h (by injection hh))
  | .ok _, .error _ => isFalse (fun h => Except.noConfusion h)
  | .error _, .ok _ => isFalse (fun h => Except.noConfusion h)

/-- A Python dictionary with string keys: an insertion-ordered
association list (keys assumed unique, as in Python). -/
abbrev Dict := List (String × Json)

/-- `d.get(k)` / `d[k]`: value of the first binding of `k`, if any. -/
def dget (d : Dict) (k : String) : Option Json :=
  (d.find? (fun p => p.1 == k)).map (fun p => p.2)

/-- `d[k] = v`: replace the binding of `k` in place, else append. -/
def dset : Dict → String → Json → Dict
  | [], k, v => [(k, v)]
  | (k', v') :: rest, k, v =>
      if k' = k then (k', v) :: rest else (k', v') :: dset rest k v

/-- `del d[k]` part of `d.pop(k, default)`: drop the binding of `k`. -/
def dremove (d : Dict) (k : String) : Dict :=
  d.filter (fun p => p.1 != k)

/-- `d.pop(k, default)` as (returned value, remaining dict). -/
def dpopD (d : Dict) (k : String) (dflt : Json) : Json × Dict :=
  ((dget d k).getD dflt, dremove d k)

/-- `d1.update(d2)`: set each binding of `d2` into `d1`, in order. -/
def dupdate (d1 d2 : Dict) : Dict :=
  d2.foldl (fun acc p => dset acc p.1 p.2) d1

/-- Lookup in a Python dict keyed by arbitrary (hashable) values, as
used for `dimensions_metadata` / `cubes_metadata` / join maps. -/
def lookupJ (k : Json) (m : List (Json × Json)) : Option Json :=
  (m.find? (fun p => p.1 == k)).map (fun p => p.2)

/-- `m[k] = v` for a Python dict keyed by values. -/
def jset : List (Json × Json) → Json → Json → List (Json × Json)
  | [], k, v => [(k, v)]
  | (k', v') :: rest, k, v =>
      if k' = k then (k', v) :: rest else (k', v') :: jset rest k v

/-- Python truthiness of a value (`if x:`). -/
def pyTruthy : Json → Bool
  | .null => false
  | .bool b => b
  | .num n => n != 0
  | .str s => s != ""
  | .arr xs => !xs.isEmpty
  | .obj kvs => !kvs.isEmpty

/-- The exceptions raised by the embedded code.  `noSuchCube` is
`NoSuchCubeError`; `missingJoinName`, `duplicateJoinName`, `noMaster`,
`noDetail`, `fragmentNoName` and `duplicateCubeFile` are the
`ModelError` raises of `providers.py` (with their message payloads);
`keyError`, `attributeError` and `typeError` are the built-in Python
exceptions that escape uncaught.  In `noMaster`/`noDetail` the first
payload is the value interpolated for the cube name in the message
(`"No master in join for cube '%s' (join name: %s)"`) and the second
is the join name. -/
inductive PErr where
  | noSuchCube : String → PErr
  | missingJoinName : PErr
  | duplicateJoinName : Json → PErr
  | noMaster : Json → Json → PErr
  | noDetail : Json → Json → PErr
  | fragmentNoName : String → PErr
  | duplicateCubeFile : Json → String → PErr
  | keyError : String → PErr
  | attributeError : PErr
  | typeError : PErr
deriving DecidableEq

/-- Python list concatenation `a + b`: TypeError unless both sides
are lists. -/
def listConcat : Json → Json → Except PErr (List Json)
  | .arr a, .arr b => .ok (a ++ b)
  | _, _ => .error .typeError

/-- `a.update(b)` for two JSON values that must both be dicts:
AttributeError when `a` is not a dict (no `update` attribute),
TypeError when the argument `b` is not a mapping. -/
def objUpdate : Json → Json → Except PErr Dict
  | .obj a, .obj b => .ok (dupdate a b)
  | .obj _, _ => .error .typeError
  | _, _ => .error .attributeError

/-- `ModelProvider._merge_metadata(metadata, other)`: pop and
concatenate the cube, dimension and join lists, pop and key-wise
update the mappings, store each combined value only when non-empty,
then overlay every remaining key of `other`. -/
def merge_metadata (metadata other : Dict) : Except PErr Dict :=
  let (cubesM, metadata) := dpopD metadata "cubes" (.arr [])
  let (cubesO, other) := dpopD other "cubes" (.arr [])
  match listConcat cubesM cubesO with
  | .error e => .error e
  | .ok cubes =>
  let metadata := if !cubes.isEmpty then dset metadata "cubes" (.arr cubes) else metadata
  let (dimsM, metadata) := dpopD metadata "dimensions" (.arr [])
  let (dimsO, other) := dpopD other "dimensions" (.arr [])
  match listConcat dimsM dimsO with
  | .error e => .error e
  | .ok dims =>
  let metadata := if !dims.isEmpty then dset metadata "dimensions" (.arr dims) else metadata
  let (joinsM, metadata) := dpopD metadata "joins" (.arr [])
  let (joinsO, other) := dpopD other "joins" (.arr [])
  match listConcat joinsM joinsO with
  | .error e => .error e
  | .ok joins =>
  let metadata := if !joins.isEmpty then dset metadata "joins" (.arr joins) else metadata
  let (mapsM, metadata) := dpopD metadata "mappings" (.obj [])
  let (mapsO, other) := dpopD other "mappings" (.obj [])
  match objUpdate mapsM mapsO with
  | .error e => .error e
  | .ok mappings =>
  let metadata := if !mappings.isEmpty then dset metadata "mappings" (.obj mappings) else metadata
  .ok (dupdate metadata other)

/-- The provider state set up by `ModelProvider.__init__`: the merged
model metadata, the name-keyed dimension and cube maps, and the
options dict. -/
structure Provider where
  metadata : Dict
  dimensions_metadata : List (Json × Json)
  cubes_metadata : List (Json × Json)
  options : Dict
deriving DecidableEq

/-- The `__init__` loops filling `dimensions_metadata` and
`cubes_metadata`: each entry must be a dict carrying a "name" key
(`entry["name"]` raises otherwise); a later entry with an equal name
overwrites an earlier one (the source has a TODO about duplicate
checking).  Iterating a non-list is embedded as TypeError. -/
def buildNameMap (entries : Json) : Except PErr (List (Json × Json)) :=
  match entries with
  | .arr xs =>
      xs.foldlM (fun acc e =>
        match e with
        | .obj kvs =>
            match dget kvs "name" with
            | some nm => .ok (jset acc nm e)
            | none => .error (.keyError "name")
        | _ => .error .typeError) []
  | _ => .error .typeError

/-- `ModelProvider.__init__(metadata)` (with the base class's empty
`default_metadata()`): merge the defaults into the user metadata,
build the two name maps, and set `self.options` to
`metadata.get("options", {})` updated in place with
`metadata.get("browser_options", {})` — when the model carries an
"options" key that update mutates the stored metadata, which the
returned state reflects. -/
def mkProvider (userMeta : Dict) : Except PErr Provider := do
  let meta ← merge_metadata [] userMeta
  let dims ← buildNameMap ((dget meta "dimensions").getD (.arr []))
  let cubes ← buildNameMap ((dget meta "cubes").getD (.arr []))
  let opts ← objUpdate ((dget meta "options").getD (.obj []))
                       ((dget meta "browser_options").getD (.obj []))
  let meta := if (dget meta "options").isSome then dset meta "options" (.obj opts) else meta
  return { metadata := meta, dimensions_metadata := dims,
           cubes_metadata := cubes, options := opts }

/-- `ModelProvider.cube_options(cube_name)`: a copy of the provider's
options, updated with the cube's "options" and "browser_options" when
the cube name is known; an unknown name just returns the copy. -/
def cube_options (p : Provider) (cube_name : String) : Except PErr Dict :=
  match lookupJ (.str cube_name) p.cubes_metadata with
  | none => .ok p.options
  | some cube =>
      match cube with
      | .obj kvs => do
          let o1 ← objUpdate (.obj p.options) ((dget kvs "options").getD (.obj []))
          let o2 ← objUpdate (.obj o1) ((dget kvs "browser_options").getD (.obj []))
          return o2
      | _ => .error .attributeError

/-- `ModelProvider.dimension_metadata(name)`: a bare dict lookup in
`self.dimensions_metadata`, raising KeyError on a missing name. -/
def dimension_metadata (p : Provider) (name : String) : Except PErr Json :=
  match lookupJ (.str name) p.dimensions_metadata with
  | some d => .ok d
  | none => .error (.keyError name)

/-- The datastore lines of `cube_metadata`: when the cube's own
"datastore" value is falsy (or absent) store the model's
`self.metadata.get("datastore")` (None when absent). -/
def datastoreStep (modelMeta md : Dict) : Dict :=
  if pyTruthy ((dget md "datastore").getD .null) then md
  else dset md "datastore" ((dget modelMeta "datastore").getD .null)

/-- The browser_options lines of `cube_metadata`.
`browser_options = self.metadata.get('browser_options', {})` binds the
dict object stored in the model metadata (when the key is present),
and the subsequent `browser_options.update(...)` mutates it in place;
the second component of the result is the model metadata after the
call.  On an exception the update has not happened, so the model
metadata is returned unchanged. -/
def browserOptionsStep (modelMeta md : Dict) : (Except PErr Dict) × Dict :=
  let bo := (dget modelMeta "browser_options").getD (.obj [])
  let cubeBo := (dget md "browser_options").getD .null
  if pyTruthy cubeBo then
    match bo, cubeBo with
    | .obj boD, .obj cbD =>
        let newBo := Json.obj (dupdate boD cbD)
        (.ok (dset md "browser_options" newBo),
         if (dget modelMeta "browser_options").isSome
         then dset modelMeta "browser_options" newBo
         else modelMeta)
    | .obj _, _ => (.error .typeError, modelMeta)
    | _, _ => (.error .attributeError, modelMeta)
  else (.ok (dset md "browser_options" bo), modelMeta)

/-- The mappings lines of `cube_metadata`: pop the cube's mappings;
when the model's mappings are truthy, deep copy them (value identity
here) and update with the cube's, else use the cube's alone. -/
def mappingsStep (modelMeta md : Dict) : Except PErr Dict :=
  let model_mappings := (dget modelMeta "mappings").getD .null
  let (cube_mappings, md) := dpopD md "mappings" (.obj [])
  if pyTruthy model_mappings then
    match objUpdate model_mappings cube_mappings with
    | .error e => .error e
    | .ok m => .ok (dset md "mappings" (.obj m))
  else
    .ok (dset md "mappings" cube_mappings)

/-- The model-join index loop of `cube_metadata`: each model join must
be a dict (TypeError otherwise) carrying "name" (its absence raises
the missing-join-name ModelError), and a repeated name raises the
duplicate-join-name ModelError; otherwise the join is added to the
index. -/
def buildJoinMapAux (acc : List (Json × Json)) : List Json → Except PErr (List (Json × Json))
  | [] => .ok acc
  | .obj kvs :: rest =>
      match dget kvs "name" with
      | none => .error .missingJoinName
      | some jn =>
          if (lookupJ jn acc).isSome then .error (.duplicateJoinName jn)
          else buildJoinMapAux (acc ++ [(jn, .obj kvs)]) rest
  | _ :: _ => .error .typeError

/-- `buildJoinMapAux` started from the empty index. -/
def buildJoinMap (mjoins : List Json) : Except PErr (List (Json × Json)) :=
  buildJoinMapAux [] mjoins

/-- One iteration of the cube-join merge loop of `cube_metadata`:
`name = join.get('name')` (AttributeError on a non-dict); when the
name is truthy and indexed, start from a copy of the model join and
update with the cube join, else update an empty dict with it. -/
def mergeOneJoin (mmap : List (Json × Json)) : Json → Except PErr Dict
  | .obj kvs =>
      let nm := (dget kvs "name").getD .null
      match (if pyTruthy nm then lookupJ nm mmap else none) with
      | some (.obj mj) => .ok (dupdate mj kvs)
      | some _ => .error .typeError
      | none => .ok (dupdate [] kvs)
  | _ => .error .attributeError

/-- The join validation loop of `cube_metadata` over merged joins:
every join must carry "master" and "detail" keys; the raised message
interpolates `cited` where the cube name was intended (the loop above
it reassigned the `name` variable) together with the join's name. -/
def validateJoins (cited : Json) : List Dict → Except PErr Unit
  | [] => .ok ()
  | d :: rest =>
      if (dget d "master").isNone then
        .error (.noMaster cited ((dget d "name").getD .null))
      else if (dget d "detail").isNone then
        .error (.noDetail cited ((dget d "name").getD .null))
      else validateJoins cited rest

/-- The join validation loop over the cube's raw join list (taken when
the merge branch is skipped).  A non-dict join is embedded as
TypeError (Python would run `in` with container-specific meaning). -/
def validateJoinsRaw (cited : Json) : List Json → Except PErr Unit
  | [] => .ok ()
  | .obj d :: rest =>
      if (dget d "master").isNone then
        .error (.noMaster cited ((dget d "name").getD .null))
      else if (dget d "detail").isNone then
        .error (.noDetail cited ((dget d "name").getD .null))
      else validateJoinsRaw cited rest
  | _ :: _ => .error .typeError

/-- The joins section of `cube_metadata`: pop the cube's joins; when
both the cube's and the model's join lists are truthy, build the model
join index, merge each cube join against it, validate, and store the
merged list; otherwise validate and store the cube's joins unchanged.
Iterating a non-list is embedded as TypeError. -/
def joinsStep (modelMeta : Dict) (cubeName : String) (md : Dict) : Except PErr Dict :=
  let model_joins := (dget modelMeta "joins").getD (.arr [])
  let (cube_joins, md) := dpopD md "joins" (.arr [])
  if pyTruthy cube_joins && pyTruthy model_joins then
    match model_joins, cube_joins with
    | .arr mjs, .arr cjs =>
        (match buildJoinMap mjs with
         | .error e => .error e
         | .ok mmap =>
           match cjs.mapM (mergeOneJoin mmap) with
           | .error e => .error e
           | .ok merged =>
             -- after the merge loop the variable `name` holds the
             -- last cube join's `join.get('name')`, not the cube name
             let cited := match cjs.getLast? with
               | some (.obj jkvs) => (dget jkvs "name").getD .null
               | _ => .null
             match validateJoins cited merged with
             | .error e => .error e
             | .ok _ => .ok (dset md "joins" (.arr (merged.map Json.obj))))
    | _, _ => .error .typeError
  else
    match cube_joins with
    | .arr cjs =>
        (match validateJoinsRaw (.str cubeName) cjs with
         | .error e => .error e
         | .ok _ => .ok (dset md "joins" cube_joins))
    | _ => .error .typeError

/-- `ModelProvider.cube_metadata(name)`, with the provider state
threaded explicitly: the second component is the provider after the
call (its stored metadata can differ from the input's, because the
browser_options step updates the stored dict in place). -/
def cube_metadata (p : Provider) (name : String) : (Except PErr Dict) × Provider :=
  match lookupJ (.str name) p.cubes_metadata with
  | none => (.error (.noSuchCube name), p)
  | some (.obj kvs) =>
      let md1 := datastoreStep p.metadata kvs
      match browserOptionsStep p.metadata md1 with
      | (.error e, m') => (.error e, { p with metadata := m' })
      | (.ok md2, m') =>
          let p' := { p with metadata := m' }
          match mappingsStep m' md2 with
          | .error e => (.error e, p')
          | .ok md3 =>
              match joinsStep m' name md3 with
              | .error e => (.error e, p')
              | .ok md4 => (.ok md4, p')
  | some _ => (.error .typeError, p)

/-- `os.path.splitext(fn)[1]` for a bare file name: the suffix from
the last dot, unless every character before that dot is itself a dot
(then there is no extension). -/
def splitextExt (fn : String) : String :=
  let cs := fn.toList
  let idxs := (List.range cs.length).filter (fun i => cs.getD i ' ' == '.')
  match idxs.getLast? with
  | none => ""
  | some i =>
      if (List.range i).all (fun j => cs.getD j ' ' == '.') then ""
      else String.mk (cs.drop i)

/-- The first component of `re.split('_', filename)`: the characters
before the first underscore (the whole name when there is none). -/
def beforeUnderscore (fn : String) : String :=
  String.mk (fn.toList.takeWhile (fun c => c != '_'))

/-- One file of the `read_model_metadata_bundle` walk: skip non-JSON
extensions; classify by the part of the file name before the first
underscore; a fragment must be a dict (TypeError otherwise) with a
"name" key (else the has-no-name-key ModelError); a name already
present in the collected list raises — for cubes the duplicate
ModelError, for dimensions the raise itself fails with TypeError
because its message expression applies the format operator twice. -/
def addBundleFile (model : Dict) (filename : String) (desc : Json) : Except PErr Dict :=
  if splitextExt filename != ".json" then .ok model
  else
    let prfx := beforeUnderscore filename
    if prfx = "dim" ∨ prfx = "dimension" then
      match desc with
      | .obj kvs =>
          match dget kvs "name" with
          | none => .error (.fragmentNoName filename)
          | some nm =>
              match dget model "dimensions" with
              | some (.arr xs) =>
                  if nm ∈ xs then .error .typeError
                  else .ok (dset model "dimensions" (.arr (xs ++ [desc])))
              | _ => .error .typeError
      | _ => .error .typeError
    else if prfx = "cube" then
      match desc with
      | .obj kvs =>
          match dget kvs "name" with
          | none => .error (.fragmentNoName filename)
          | some nm =>
              match dget model "cubes" with
              | some (.arr xs) =>
                  if nm ∈ xs then .error (.duplicateCubeFile nm filename)
                  else .ok (dset model "cubes" (.arr (xs ++ [desc])))
              | _ => .error .typeError
      | _ => .error .typeError
    else .ok model

/-- `read_model_metadata_bundle`, abstracted over the file system: the
parsed `model.json` plus the walk-ordered fragment files (file name
and parsed content).  Defaults the dimension and cube lists when
absent, then folds every file through `addBundleFile`. -/
def read_model_metadata_bundle (model0 : Dict) (files : List (String × Json)) : Except PErr Dict :=
  let model := if (dget model0 "dimensions").isNone
               then dset model0 "dimensions" (.arr []) else model0
  let model := if (dget model "cubes").isNone
               then dset model "cubes" (.arr []) else model
  files.foldlM (fun m file => addBundleFile m file.1 file.2) model

/-- The list stored under key `k`, empty when the key is absent or not
a list (a view used to state properties). -/
def jlistOf (d : Dict) (k : String) : List Json :=
  match dget d k with
  | some (.arr xs) => xs
  | _ => []

/-- The dict stored under key `k`, empty when the key is absent or not
a dict (a view used to state properties). -/
def jmapOf (d : Dict) (k : String) : Dict :=
  match dget d k with
  | some (.obj kvs) => kvs
  | _ => []

/-- Whether a value is a Python dict. -/
def isObjJ : Json → Bool
  | .obj _ => true
  | _ => false

/-- The "name" entry of a join given as a dict. -/
def joinName : Json → Option Json
  | .obj kvs => dget kvs "name"
  | _ => none

/-- The names carried by a join list. -/
def joinNames (l : List Json) : List Json :=
  l.filterMap joinName

/-- Key `k` of `d`, if present, holds a list. -/
def WTlistKey (d : Dict) (k : String) : Bool :=
  match dget d k with
  | none => true
  | some (.arr _) => true
  | _ => false

/-- Key `k` of `d`, if present, holds a dict. -/
def WTmapKey (d : Dict) (k : String) : Bool :=
  match dget d k with
  | none => true
  | some (.obj _) => true
  | _ => false

/-- The four specially merged keys of a model metadata document hold
values of the types the merge expects. -/
def WTmeta (d : Dict) : Bool :=
  WTlistKey d "cubes" && WTlistKey d "dimensions" &&
  WTlistKey d "joins" && WTmapKey d "mappings"

/-- The model-side dict produced by `merge_metadata` on well-typed
inputs: the four keys popped, each combined value stored back when
non-empty (the normal form used by the merge proof). -/
def mergeSpineM (D U : Dict) : Dict :=
  let cV := jlistOf D "cubes" ++ jlistOf U "cubes"
  let M1 := if !cV.isEmpty then dset (dremove D "cubes") "cubes" (.arr cV)
            else dremove D "cubes"
  let dV := jlistOf D "dimensions" ++ jlistOf U "dimensions"
  let M2 := if !dV.isEmpty then dset (dremove M1 "dimensions") "dimensions" (.arr dV)
            else dremove M1 "dimensions"
  let jV := jlistOf D "joins" ++ jlistOf U "joins"
  let M3 := if !jV.isEmpty then dset (dremove M2 "joins") "joins" (.arr jV)
            else dremove M2 "joins"
  let mV := dupdate (jmapOf D "mappings") (jmapOf U "mappings")
  if !mV.isEmpty then dset (dremove M3 "mappings") "mappings" (.obj mV)
  else dremove M3 "mappings"

/-- The user-side dict produced by `merge_metadata`: the four keys
popped. -/
def mergeSpineO (U : Dict) : Dict :=
  dremove (dremove (dremove (dremove U "cubes") "dimensions") "joins") "mappings"

/-- One structural issue reported by the jsonschema collaborator
(`error.path`, `error.message`). -/
structure SchemaIssue where
  path : List String
  message : String

/-- The `ValidationError` namedtuple of `providers.py`:
(severity, scope, object, property, message). -/
structure VError where
  severity : String
  scope : String
  object : Json
  property : Option String
  message : String
deriving DecidableEq

/-- `ModelMetadataValidator._collect_errors`: each collaborator issue
becomes a severity-"error" `VError`, its property the dotted path
(None when the path is empty). -/
def collectErrors (scope : String) (objName : Json) (issues : List SchemaIssue) : List VError :=
  issues.map (fun e =>
    { severity := "error", scope := scope, object := objName,
      property := if !e.path.isEmpty then some (String.intercalate "." e.path) else none,
      message := e.message })

/-- `ModelMetadataValidator.validate_model`, with the model-schema
collaborator abstracted as `mv`: schema issues first, then one
severity-"default" advisory for every dimension entry given as a bare
string. -/
def validate_model (mv : Dict → List SchemaIssue) (metadata : Dict) : List VError :=
  let errors := collectErrors "model" .null (mv metadata)
  match (dget metadata "dimensions").getD .null with
  | .arr ds =>
      if pyTruthy (.arr ds) then
        errors ++ ds.filterMap (fun d =>
          match d with
          | .str s => some
              { severity := "default", scope := "model", object := .null,
                property := some "dimensions",
                message := "Dimension " ++ s ++ " is not described, creating flat single-attribute dimension" }
          | _ => none)
      else errors
  | _ => errors

/-- `ModelMetadataValidator.validate_cube`: `cube.get("name")` raises
AttributeError on a non-dict cube, else collect the cube-schema
issues. -/
def validate_cube (cv : Json → List SchemaIssue) (cube : Json) : Except PErr (List VError) :=
  match cube with
  | .obj kvs => .ok (collectErrors "cube" ((dget kvs "name").getD .null) (cv cube))
  | _ => .error .attributeError

/-- `ModelMetadataValidator.validate_dimension`: `dim.get("name")`
raises AttributeError on a non-dict dimension; else the dimension
schema issues followed by the advisory checks on
default_hierarchy_name and levels/attributes. -/
def validate_dimension (dv : Json → List SchemaIssue) (dim : Json) : Except PErr (List VError) :=
  match dim with
  | .obj kvs =>
      let name := (dget kvs "name").getD .null
      let errors := collectErrors "dimension" name (dv dim)
      let errors :=
        if (dget kvs "default_hierarchy_name").isNone then
          errors ++ [{ severity := "default", scope := "dimension", object := name,
                       property := none,
                       message := "No default hierarchy name specified, using first one" }]
        else errors
      let errors :=
        if (dget kvs "levels").isNone ∧ (dget kvs "attributes").isNone then
          errors ++ [{ severity := "default", scope := "dimension", object := name,
                       property := none,
                       message := "Neither levels nor attributes specified, creating flat dimension without details" }]
        else if (dget kvs "levels").isSome ∧ (dget kvs "attributes").isSome then
          errors ++ [{ severity := "error", scope := "dimension", object := name,
                       property := none,
                       message := "Both levels and attributes specified" }]
        else errors
      .ok errors
  | _ => .error .attributeError

/-- `ModelMetadataValidator.validate`: model document first, then each
cube, then each dimension; iterating a non-list is embedded as
TypeError. -/
def validate (mv : Dict → List SchemaIssue) (cv dv : Json → List SchemaIssue)
    (metadata : Dict) : Except PErr (List VError) :=
  let errors := validate_model mv metadata
  let afterCubes : Except PErr (List VError) :=
    match dget metadata "cubes" with
    | none => .ok errors
    | some (.arr cs) =>
        (match cs.mapM (validate_cube cv) with
         | .error e => .error e
         | .ok es => .ok (errors ++ es.flatten))
    | some _ => .error .typeError
  match afterCubes with
  | .error e => .error e
  | .ok errors =>
      match dget metadata "dimensions" with
      | none => .ok errors
      | some (.arr ds) =>
          (match ds.mapM (validate_dimension dv) with
           | .error e => .error e
           | .ok es => .ok (errors ++ es.flatten))
      | some _ => .error .typeError

/-! Concrete model documents and provider states used by the theorems. -/

/-- A model with browser_options and two cubes, the first carrying its
own browser_options. -/
def c1meta : Dict :=
  [("browser_options", .obj [("m", .num 1)]),
   ("cubes", .arr [.obj [("name", .str "a"), ("browser_options", .obj [("x", .num 1)])],
                   .obj [("name", .str "b")]])]

/-- The join-override scenario: one named model join, one cube join
overriding its detail. -/
def c4meta : Dict :=
  [("joins", .arr [.obj [("name", .str "j1"), ("master", .str "a.id"),
                         ("detail", .str "b.aid")]]),
   ("cubes", .arr [.obj [("name", .str "c"),
      ("joins", .arr [.obj [("name", .str "j1"), ("detail", .str "b.aid2")]])]])]

/-- The resolved metadata of cube "c" of `c4meta`. -/
def c4resolved : Dict :=
  [("name", .str "c"), ("datastore", .null), ("browser_options", .obj []),
   ("mappings", .obj []),
   ("joins", .arr [.obj [("name", .str "j1"), ("master", .str "a.id"),
                         ("detail", .str "b.aid2")]])]

/-- The model join of `c4meta`. -/
def c4modelJoin : Dict :=
  [("name", .str "j1"), ("master", .str "a.id"), ("detail", .str "b.aid")]

/-- The cube join of `c4meta`. -/
def c4cubeJoin : Dict :=
  [("name", .str "j1"), ("detail", .str "b.aid2")]

/-- The model join index built from `c4meta`'s join list. -/
def c4mmap : List (Json × Json) :=
  [(.str "j1", .obj c4modelJoin)]

/-- A model join named j1, and a cube "sales" whose only join "j2"
carries no master. -/
def c5meta : Dict :=
  [("joins", .arr [.obj [("name", .str "j1"), ("master", .str "m"),
                         ("detail", .str "d")]]),
   ("cubes", .arr [.obj [("name", .str "sales"),
      ("joins", .arr [.obj [("name", .str "j2")]])]])]

/-- A model join without a name, and a cube that does supply joins. -/
def c7metaMissing : Dict :=
  [("joins", .arr [.obj [("master", .str "m"), ("detail", .str "d")]]),
   ("cubes", .arr [.obj [("name", .str "c"),
      ("joins", .arr [.obj [("name", .str "x"), ("master", .str "mm"),
                            ("detail", .str "dd")]])]])]

/-- Two model joins sharing the name j1, and a cube that supplies
joins. -/
def c7metaDup : Dict :=
  [("joins", .arr [.obj [("name", .str "j1"), ("master", .str "m1"),
                         ("detail", .str "d1")],
                   .obj [("name", .str "j1"), ("master", .str "m2"),
                         ("detail", .str "d2")]]),
   ("cubes", .arr [.obj [("name", .str "c"),
      ("joins", .arr [.obj [("name", .str "x"), ("master", .str "mm"),
                            ("detail", .str "dd")]])]])]

/-- A provider whose model has an unnamed join and whose cube "c" has
no joins of its own. -/
def c8p : Provider :=
  { metadata := [("joins", .arr [.obj [("master", .str "a"), ("detail", .str "b")]])],
    dimensions_metadata := [],
    cubes_metadata := [(.str "c", .obj [("name", .str "c")])],
    options := [] }

/-- The cube copy of `c8p`'s cube "c" after the datastore and
browser_options steps. -/
def c8md2 : Dict :=
  [("name", .str "c"), ("datastore", .null), ("browser_options", .obj [])]

/-- The cube copy of `c8p`'s cube "c" after the mappings step. -/
def c8md3 : Dict :=
  [("name", .str "c"), ("datastore", .null), ("browser_options", .obj []),
   ("mappings", .obj [])]

/-- A provider with a model datastore and a cube whose datastore is
the empty string. -/
def c10p : Provider :=
  { metadata := [("datastore", .str "ds1")],
    dimensions_metadata := [],
    cubes_metadata := [(.str "c", .obj [("name", .str "c"), ("datastore", .str "")])],
    options := [] }

/-- The resolved metadata of cube "c" of `c10p`. -/
def c10res : Dict :=
  [("name", .str "c"), ("datastore", .str "ds1"), ("browser_options", .obj []),
   ("mappings", .obj []), ("joins", .arr [])]

/-- A provider with no cubes, no dimensions and no options. -/
def emptyProvider : Provider :=
  { metadata := [], dimensions_metadata := [], cubes_metadata := [], options := [] }

/-! Basic lemmas about the embedded Python dict operations. -/

theorem dget_nil (k : String) : dget [] k = none := rfl

theorem dget_cons (k₀ : String) (v₀ : Json) (d : Dict) (k : String) :
    dget ((k₀, v₀) :: d) k = if k₀ = k then some v₀ else dget d k := by
  by_cases h : k₀ = k
  · subst h
    simp [dget, List.find?_cons]
  · have hb : (k₀ == k) = false := beq_eq_false_iff_ne.2 h
    simp [dget, List.find?_cons, hb, h]

theorem dget_dset (d : Dict) (k : String) (v : Json) (k' : String) :
    dget (dset d k v) k' = if k' = k then some v else dget d k' := by
  induction d with
  | nil =>
      rw [show dset [] k v = [(k, v)] from rfl, dget_cons, dget_nil]
      by_cases h : k' = k
      · simp [h]
      · have h2 : ¬ k = k' := fun hh => h hh.symm
        simp [h, h2]
  | cons p rest ih =>
      obtain ⟨k₀, v₀⟩ := p
      by_cases h0 : k₀ = k
      · subst h0
        rw [show dset ((k₀, v₀) :: rest) k₀ v = (k₀, v) :: rest from by simp [dset],
          dget_cons, dget_cons]
        by_cases h : k₀ = k'
        · subst h
          simp
        · have h2 : ¬ k' = k₀ := fun hh => h hh.symm
          simp [h, h2]
      · rw [show dset ((k₀, v₀) :: rest) k v = (k₀, v₀) :: dset rest k v from by
            simp [dset, h0],
          dget_cons, dget_cons, ih]
        by_cases h : k₀ = k'
        · subst h
          have h2 : ¬ k₀ = k := h0
          have h3 : ¬ k = k₀ := fun hh => h0 hh.symm
          simp [fun hh : k₀ = k => h0 hh]
        · simp [h]

theorem dget_dremove (d : Dict) (k k' : String) :
    dget (dremove d k) k' = if k' = k then none else dget d k' := by
  induction d with
  | nil =>
      simp [dremove, dget_nil]
  | cons p rest ih =>
      obtain ⟨k₀, v₀⟩ := p
      by_cases h0 : k₀ = k
      · subst h0
        rw [show dremove ((k₀, v₀) :: rest) k₀ = dremove rest k₀ from by
             simp [dremove, List.filter_cons],
           ih, dget_cons]
        by_cases h : k' = k₀
        · simp [h]
        · have h2 : ¬ k₀ = k' := fun hh => h hh.symm
          simp [h, h2]
      · rw [show dremove ((k₀, v₀) :: rest) k = (k₀, v₀) :: dremove rest k from by
             simp [dremove, List.filter_cons, bne, h0],
           dget_cons, ih, dget_cons]
        by_cases h : k₀ = k'
        · subst h
          simp [h0]
        · simp [h]

theorem dget_eq_none_iff (d : Dict) (k : String) :
    dget d k = none ↔ k ∉ d.map Prod.fst := by
  induction d with
  | nil => simp [dget_nil]
  | cons p rest ih =>
      obtain ⟨k₀, v₀⟩ := p
      rw [dget_cons]
      by_cases h : k₀ = k
      · simp [h]
      · have h2 : ¬ k = k₀ := fun hh => h hh.symm
        simp [h, h2, ih]

theorem dset_of_not_mem (d : Dict) (k : String) (v : Json)
    (h : k ∉ d.map Prod.fst) : dset d k v = d ++ [(k, v)] := by
  induction d with
  | nil => rfl
  | cons p rest ih =>
      obtain ⟨k₀, v₀⟩ := p
      simp only [List.map_cons, List.mem_cons] at h
      push_neg at h
      have h0 : ¬ k₀ = k := fun hh => h.1 hh.symm
      rw [show dset ((k₀, v₀) :: rest) k v = (k₀, v₀) :: dset rest k v from by
            simp [dset, h0],
        ih h.2]
      simp

theorem dget_dupdate (d1 d2 : Dict) (k : String)
    (h : (d2.map Prod.fst).Nodup) :
    dget (dupdate d1 d2) k = ((dget d2 k).orElse (fun _ => dget d1 k)) := by
  induction d2 generalizing d1 with
  | nil => simp [dupdate, dget_nil, Option.orElse]
  | cons p rest ih =>
      obtain ⟨k₀, v₀⟩ := p
      simp only [List.map_cons, List.nodup_cons] at h
      have hstep : dupdate d1 ((k₀, v₀) :: rest) = dupdate (dset d1 k₀ v₀) rest := rfl
      rw [hstep, ih (dset d1 k₀ v₀) h.2, dget_cons, dget_dset]
      by_cases hk : k₀ = k
      · subst hk
        have hn : dget rest k₀ = none := (dget_eq_none_iff rest k₀).2 h.1
        simp [hn, Option.orElse]
      · have hk2 : ¬ k = k₀ := fun hh => hk hh.symm
        simp [hk, hk2]

theorem dupdate_fresh (d : Dict) : ∀ acc : Dict,
    (∀ k ∈ d.map Prod.fst, k ∉ acc.map Prod.fst) →
    (d.map Prod.fst).Nodup → dupdate acc d = acc ++ d := by
  induction d with
  | nil => intro acc _ _; simp [dupdate]
  | cons p rest ih =>
      intro acc hfresh hnd
      obtain ⟨k₀, v₀⟩ := p
      simp only [List.map_cons, List.nodup_cons] at hnd
      have hstep : dupdate acc ((k₀, v₀) :: rest) = dupdate (dset acc k₀ v₀) rest := rfl
      rw [hstep, dset_of_not_mem acc k₀ v₀ (hfresh k₀ (by simp))]
      have hfresh' : ∀ k ∈ rest.map Prod.fst, k ∉ (acc ++ [(k₀, v₀)]).map Prod.fst := by
        intro k hk
        simp only [List.map_append, List.mem_append, List.map_cons, List.map_nil,
          List.mem_singleton, not_or]
        constructor
        · exact hfresh k (by simp [hk])
        · intro hkk
          exact hnd.1 (hkk ▸ hk)
      rw [ih (acc ++ [(k₀, v₀)]) hfresh' hnd.2]
      simp

theorem dupdate_nil (d : Dict) (h : (d.map Prod.fst).Nodup) :
    dupdate [] d = d := by
  simpa using dupdate_fresh d [] (by simp) h

theorem lookupJ_nil (k : Json) : lookupJ k [] = none := rfl

theorem lookupJ_cons (k₀ v₀ : Json) (m : List (Json × Json)) (k : Json) :
    lookupJ k ((k₀, v₀) :: m) = if k₀ = k then some v₀ else lookupJ k m := by
  by_cases h : k₀ = k
  · subst h
    simp [lookupJ, List.find?_cons]
  · have hb : (k₀ == k) = false := beq_eq_false_iff_ne.2 h
    simp [lookupJ, List.find?_cons, hb, h]

theorem lookupJ_eq_none_iff (m : List (Json × Json)) (k : Json) :
    lookupJ k m = none ↔ k ∉ m.map Prod.fst := by
  induction m with
  | nil => simp [lookupJ_nil]
  | cons p rest ih =>
      obtain ⟨k₀, v₀⟩ := p
      rw [lookupJ_cons]
      by_cases h : k₀ = k
      · simp [h]
      · have h2 : ¬ k = k₀ := fun hh => h hh.symm
        rw [if_neg h, ih]
        simp only [List.map_cons, List.mem_cons, not_or]
        exact ⟨fun hk => ⟨h2, hk⟩, fun hk => hk.2⟩

theorem lookupJ_append (m1 m2 : List (Json × Json)) (k : Json) :
    lookupJ k (m1 ++ m2) = ((lookupJ k m1).orElse (fun _ => lookupJ k m2)) := by
  induction m1 with
  | nil => simp [lookupJ_nil, Option.orElse]
  | cons p rest ih =>
      obtain ⟨k₀, v₀⟩ := p
      rw [List.cons_append, lookupJ_cons, lookupJ_cons]
      by_cases h : k₀ = k
      · simp [h, Option.orElse]
      · simp [h, ih]

theorem nodup_keys_dremove (d : Dict) (k : String)
    (h : (d.map Prod.fst).Nodup) : ((dremove d k).map Prod.fst).Nodup := by
  have hsub : List.Sublist ((dremove d k).map Prod.fst) (d.map Prod.fst) :=
    (List.filter_sublist d).map Prod.fst
  exact h.sublist hsub

theorem dget_cond_dset (b : Bool) (X : Dict) (k : String) (v : Json) (k' : String)
    (hk : ¬ k' = k) :
    dget (if b = true then dset X k v else X) k' = dget X k' := by
  cases b
  · simp
  · simp [dget_dset, hk]

theorem dget_cond_dset_self (b : Bool) (X : Dict) (k : String) (v : Json) :
    dget (if b = true then dset X k v else X) k =
      (if b = true then some v else dget X k) := by
  cases b
  · simp
  · simp [dget_dset]

theorem dget_cond_dset2 (b : Bool) (X : Dict) (k : String) (v : Json) (k' : String) :
    dget (if b = true then dset X k v else X) k' =
      (if k' = k then (if b = true then some v else dget X k') else dget X k') := by
  cases b
  · simp
  · simp [dget_dset]

/-! Lemmas about `List.mapM` over `Except`. -/

theorem exc_bind_ok {α β : Type} (a : α) (f : α → Except PErr β) :
    (Except.ok a >>= f) = f a := rfl

theorem exc_bind_error {α β : Type} (e : PErr) (f : α → Except PErr β) :
    ((Except.error e : Except PErr α) >>= f) = .error e := rfl

theorem mapM_ok_pointwise {α β : Type} (f : α → Except PErr β) :
    ∀ (l : List α) (r : List β), l.mapM f = .ok r →
      r.length = l.length ∧
        ∀ i (h : i < l.length) (h' : i < r.length), f l[i] = .ok r[i] := by
  intro l
  induction l with
  | nil =>
      intro r hr
      rw [List.mapM_nil] at hr
      cases hr
      exact ⟨rfl, fun i h _ => absurd h (Nat.not_lt_zero i)⟩
  | cons a l ih =>
      intro r hr
      rw [List.mapM_cons] at hr
      cases hfa : f a with
      | error e =>
          rw [hfa, exc_bind_error] at hr
          exact Except.noConfusion hr
      | ok b =>
          rw [hfa, exc_bind_ok] at hr
          cases hml : l.mapM f with
          | error e =>
              rw [hml] at hr
              have hr2 : (Except.error e : Except PErr (List β)) = .ok r := hr
              exact Except.noConfusion hr2
          | ok bs =>
              rw [hml] at hr
              have hr' : Except.ok (ε := PErr) (b :: bs) = .ok r := hr
              cases hr'
              obtain ⟨hlen, hpt⟩ := ih bs hml
              refine ⟨by simp [hlen], ?_⟩
              intro i h h'
              match i with
              | 0 => simpa using hfa
              | i + 1 =>
                  simpa using hpt i (by simpa using h) (by simpa using h')

theorem mapM_ok_of_all {α β : Type} (f : α → Except PErr β) :
    ∀ l : List α, (∀ x ∈ l, ∃ y, f x = .ok y) → ∃ r, l.mapM f = .ok r := by
  intro l
  induction l with
  | nil => intro _; exact ⟨[], by rw [List.mapM_nil]; rfl⟩
  | cons a l ih =>
      intro hall
      obtain ⟨b, hb⟩ := hall a (by simp)
      obtain ⟨bs, hbs⟩ := ih (fun x hx => hall x (by simp [hx]))
      refine ⟨b :: bs, ?_⟩
      rw [List.mapM_cons, hb, hbs]
      rfl

theorem mapM_fixed_error {α β : Type} (f : α → Except PErr β) (e : PErr) :
    ∀ l : List α, (∀ x ∈ l, (∃ y, f x = .ok y) ∨ f x = .error e) →
      (∃ x ∈ l, f x = .error e) → l.mapM f = .error e := by
  intro l
  induction l with
  | nil => intro _ hex; simp at hex
  | cons a l ih =>
      intro hall hex
      rw [List.mapM_cons]
      rcases hall a (by simp) with ⟨b, hb⟩ | hb
      · rw [hb]
        have hex' : ∃ x ∈ l, f x = .error e := by
          rcases hex with ⟨x, hx, hfx⟩
          rcases List.mem_cons.1 hx with rfl | hx'
          · rw [hb] at hfx; exact absurd hfx (by simp)
          · exact ⟨x, hx', hfx⟩
        rw [ih (fun x hx => hall x (by simp [hx])) hex']
        rfl
      · rw [hb]
        rfl

/-! Lemmas for the provider-default merge. -/

theorem wt_list_getD (d : Dict) (k : String) (h : WTlistKey d k = true) :
    (dget d k).getD (.arr []) = .arr (jlistOf d k) := by
  unfold WTlistKey at h
  unfold jlistOf
  cases hd : dget d k with
  | none => rfl
  | some v =>
      rw [hd] at h
      cases v with
      | arr xs => rfl
      | null => simp at h
      | bool b => simp at h
      | num n => simp at h
      | str s => simp at h
      | obj kvs => simp at h

theorem wt_map_getD (d : Dict) (k : String) (h : WTmapKey d k = true) :
    (dget d k).getD (.obj []) = .obj (jmapOf d k) := by
  unfold WTmapKey at h
  unfold jmapOf
  cases hd : dget d k with
  | none => rfl
  | some v =>
      rw [hd] at h
      cases v with
      | obj kvs => rfl
      | null => simp at h
      | bool b => simp at h
      | num n => simp at h
      | str s => simp at h
      | arr xs => simp at h

theorem wtmeta_parts (d : Dict) (h : WTmeta d = true) :
    WTlistKey d "cubes" = true ∧ WTlistKey d "dimensions" = true ∧
    WTlistKey d "joins" = true ∧ WTmapKey d "mappings" = true := by
  unfold WTmeta at h
  simp only [Bool.and_eq_true] at h
  exact ⟨h.1.1.1, h.1.1.2, h.1.2, h.2⟩

theorem jlistOf_of_dget (M : Dict) (k : String) (xs : List Json)
    (h : dget M k = (if !xs.isEmpty then some (.arr xs) else none)) :
    jlistOf M k = xs := by
  unfold jlistOf
  rw [h]
  cases hemp : xs.isEmpty with
  | false => simp
  | true =>
      have hx : xs = [] := List.isEmpty_iff.mp hemp
      subst hx
      simp

theorem jmapOf_of_dget (M : Dict) (k : String) (kvs : Dict)
    (h : dget M k = (if !kvs.isEmpty then some (.obj kvs) else none)) :
    jmapOf M k = kvs := by
  unfold jmapOf
  rw [h]
  cases hemp : kvs.isEmpty with
  | false => simp
  | true =>
      have hx : kvs = [] := List.isEmpty_iff.mp hemp
      subst hx
      simp

/-- `merge_metadata` on well-typed inputs runs without error and
produces the spine normal form. -/
theorem merge_metadata_spine (D U : Dict)
    (hDt : WTmeta D = true) (hUt : WTmeta U = true) :
    merge_metadata D U = .ok (dupdate (mergeSpineM D U) (mergeSpineO U)) := by
  obtain ⟨hDc, hDd, hDj, hDm⟩ := wtmeta_parts D hDt
  obtain ⟨hUc, hUd, hUj, hUm⟩ := wtmeta_parts U hUt
  unfold merge_metadata mergeSpineM mergeSpineO
  dsimp only [dpopD]
  simp only [dget_dremove, dget_cond_dset2, String.reduceEq,
    if_false, if_true, reduceCtorEq, ite_false, ite_true,
    wt_list_getD D "cubes" hDc, wt_list_getD U "cubes" hUc,
    wt_list_getD D "dimensions" hDd, wt_list_getD U "dimensions" hUd,
    wt_list_getD D "joins" hDj, wt_list_getD U "joins" hUj,
    wt_map_getD D "mappings" hDm, wt_map_getD U "mappings" hUm,
    listConcat, objUpdate]

/-! Claim theorems. -/

/-- C1: the claim says resolving cubes never mutates the provider's
stored metadata, so resolving cube a then cube b yields the same
result for b as resolving b alone.  The code refutes this: resolving
"a" updates the stored model browser_options in place from m=1 to
m=1,x=1, and resolving "b" afterwards reports browser_options m=1,x=1
instead of m=1. -/
theorem c1_cube_resolution_mutates_stored_metadata :
    (mkProvider c1meta).map (fun p =>
      (dget p.metadata "browser_options",
       dget ((cube_metadata p "a").2).metadata "browser_options",
       ((cube_metadata ((cube_metadata p "a").2) "b").1).map (fun r => dget r "browser_options"),
       ((cube_metadata p "b").1).map (fun r => dget r "browser_options")))
    = .ok (some (.obj [("m", .num 1)]),
           some (.obj [("m", .num 1), ("x", .num 1)]),
           .ok (some (.obj [("m", .num 1), ("x", .num 1)])),
           .ok (some (.obj [("m", .num 1)]))) := rfl

/-- C2: the claim says a bundle with two same-kind fragments of equal
name always fails with a duplicate-name error.  The code refutes this:
the duplicate check tests membership of the name string in the list of
collected fragment dicts, which never holds, so both same-named
dimension fragments (and both same-named cube fragments) are appended
and the bundle assembles successfully. -/
theorem c2_duplicate_fragments_are_assembled :
    read_model_metadata_bundle []
      [("dim_a.json", .obj [("name", .str "a")]),
       ("dimension_a.json", .obj [("name", .str "a")])]
      = .ok [("dimensions", .arr [.obj [("name", .str "a")], .obj [("name", .str "a")]]),
             ("cubes", .arr [])]
    ∧ read_model_metadata_bundle []
      [("cube_a.json", .obj [("name", .str "a")]),
       ("cube_a2.json", .obj [("name", .str "a")])]
      = .ok [("dimensions", .arr []),
             ("cubes", .arr [.obj [("name", .str "a")], .obj [("name", .str "a")]])] :=
  ⟨by decide, by decide⟩

/-- C5: the claim says a resolved join lacking master or detail makes
the call fail with an error citing the cube name and the join name.
The code does raise the error, but when both the model and the cube
define joins the loop variable assignment `name = join.get('name')`
has overwritten the cube-name parameter, so the message cites the last
cube join's name ("j2") where the cube name ("sales") was intended. -/
theorem c5_invalid_join_error_cites_join_name_for_cube_name :
    (mkProvider c5meta).map (fun p => (cube_metadata p "sales").1)
      = .ok (.error (.noMaster (.str "j2") (.str "j2"))) := rfl

/-- C6 counterexample: the claim says `cube_options` fails with a
NoSuchCube-kind error for an unknown cube name; on the empty provider
it instead succeeds and returns the model-level options. -/
theorem c6_unknown_cube_options_succeed :
    cube_options emptyProvider "x" = .ok [] := rfl

/-- C6 (amended): `cube_options` on an unknown cube name succeeds and
returns the model-level options unchanged, and `dimension_metadata` on
an unknown dimension name fails with a KeyError lookup error. -/
theorem c6_unknown_name_accessors (p : Provider) (name : String)
    (hc : lookupJ (.str name) p.cubes_metadata = none)
    (hd : lookupJ (.str name) p.dimensions_metadata = none) :
    cube_options p name = .ok p.options ∧
    dimension_metadata p name = .error (.keyError name) := by
  constructor
  · simp [cube_options, hc]
  · simp [dimension_metadata, hd]

/-- C6 witness: the amended statement at the empty provider and the
name "x". -/
theorem c6_unknown_name_accessors_witness :
    (lookupJ (.str "x") emptyProvider.cubes_metadata = none ∧
     lookupJ (.str "x") emptyProvider.dimensions_metadata = none) ∧
    (cube_options emptyProvider "x" = .ok emptyProvider.options ∧
     dimension_metadata emptyProvider "x" = .error (.keyError "x")) :=
  ⟨⟨rfl, rfl⟩, c6_unknown_name_accessors emptyProvider "x" rfl rfl⟩

/-- C3: the claim says validation of a document whose dimensions list
contains a bare string entry runs to completion, returning exactly one
severity-"default" issue for it, and never raises.  The code refutes
this: after `validate_model` has recorded the advisory issue,
`validate` calls `validate_dimension` on the bare string, whose
`dim.get("name")` raises AttributeError, aborting validation —
whatever the three schema collaborators report. -/
theorem c3_bare_string_dimension_aborts_validation
    (mv : Dict → List SchemaIssue) (cv dv : Json → List SchemaIssue)
    (meta : Dict) (ds : List Json) (s : String)
    (hd : dget meta "dimensions" = some (.arr ds))
    (hs : Json.str s ∈ ds)
    (hc : dget meta "cubes" = none ∨
          ∃ cs, dget meta "cubes" = some (.arr cs) ∧ ∀ c ∈ cs, isObjJ c = true) :
    validate mv cv dv meta = .error .attributeError := by
  have hdim : ds.mapM (validate_dimension dv) = .error .attributeError := by
    apply mapM_fixed_error
    · intro x _
      cases x with
      | obj kvs => exact Or.inl ⟨_, rfl⟩
      | null => exact Or.inr rfl
      | bool b => exact Or.inr rfl
      | num n => exact Or.inr rfl
      | str t => exact Or.inr rfl
      | arr xs => exact Or.inr rfl
    · exact ⟨.str s, hs, rfl⟩
  rcases hc with hc | ⟨cs, hc, hcs⟩
  · simp only [validate, hc, hd, hdim]
  · have hok : ∃ r, cs.mapM (validate_cube cv) = .ok r := by
      apply mapM_ok_of_all
      intro c hcmem
      have := hcs c hcmem
      cases c with
      | obj kvs => exact ⟨_, rfl⟩
      | null => simp [isObjJ] at this
      | bool b => simp [isObjJ] at this
      | num n => simp [isObjJ] at this
      | str t => simp [isObjJ] at this
      | arr xs => simp [isObjJ] at this
    obtain ⟨r, hr⟩ := hok
    simp only [validate, hc, hr, hd, hdim]

/-- C3 witness: the aborting behavior at the one-entry document with
empty collaborator reports. -/
theorem c3_bare_string_dimension_aborts_validation_witness :
    (dget [("dimensions", Json.arr [Json.str "time"])] "dimensions"
       = some (.arr [.str "time"]) ∧
     Json.str "time" ∈ [Json.str "time"] ∧
     dget [("dimensions", Json.arr [Json.str "time"])] "cubes" = none) ∧
    validate (fun _ => []) (fun _ => []) (fun _ => [])
      [("dimensions", Json.arr [Json.str "time"])] = .error .attributeError :=
  ⟨⟨rfl, by simp, rfl⟩,
   c3_bare_string_dimension_aborts_validation (fun _ => []) (fun _ => [])
     (fun _ => []) [("dimensions", Json.arr [Json.str "time"])] [Json.str "time"]
     "time" rfl (by simp) (Or.inl rfl)⟩

/-! Shape lemmas for the stages of `cube_metadata`. -/

theorem dget_datastoreStep_other (mm md : Dict) (k : String)
    (hk : ¬ k = "datastore") :
    dget (datastoreStep mm md) k = dget md k := by
  unfold datastoreStep
  split
  · rfl
  · rw [dget_dset, if_neg hk]

theorem dget_datastoreStep_self (mm md : Dict) :
    dget (datastoreStep mm md) "datastore" =
      some (if pyTruthy ((dget md "datastore").getD .null) = true
            then (dget md "datastore").getD .null
            else (dget mm "datastore").getD .null) := by
  unfold datastoreStep
  by_cases h : pyTruthy ((dget md "datastore").getD .null) = true
  · rw [if_pos h, if_pos h]
    cases hd : dget md "datastore" with
    | none => rw [hd] at h; simp [pyTruthy] at h
    | some v => simp
  · rw [if_neg h, if_neg h, dget_dset, if_pos rfl]

theorem browserOptionsStep_ok_shape (mm md md2 m' : Dict)
    (h : browserOptionsStep mm md = (.ok md2, m')) :
    ∃ v, md2 = dset md "browser_options" v := by
  unfold browserOptionsStep at h
  dsimp only [] at h
  by_cases hb : pyTruthy ((dget md "browser_options").getD Json.null) = true
  · rw [if_pos hb] at h
    split at h
    · rw [Prod.mk.injEq] at h
      obtain ⟨h1, _⟩ := h
      injection h1 with h1
      exact ⟨_, h1.symm⟩
    · rw [Prod.mk.injEq] at h
      exact absurd h.1 (by simp)
    · rw [Prod.mk.injEq] at h
      exact absurd h.1 (by simp)
  · rw [if_neg hb] at h
    rw [Prod.mk.injEq] at h
    obtain ⟨h1, _⟩ := h
    injection h1 with h1
    exact ⟨_, h1.symm⟩

theorem mappingsStep_ok_shape (mm md md3 : Dict)
    (h : mappingsStep mm md = .ok md3) :
    ∃ v, md3 = dset (dremove md "mappings") "mappings" v := by
  unfold mappingsStep at h
  simp only [dpopD] at h
  split at h
  · split at h
    · simp at h
    · injection h with h1
      exact ⟨_, h1.symm⟩
  · injection h with h1
    exact ⟨_, h1.symm⟩

theorem joinsStep_ok_shape (mm : Dict) (nm : String) (md md4 : Dict)
    (h : joinsStep mm nm md = .ok md4) :
    ∃ v, md4 = dset (dremove md "joins") "joins" v := by
  unfold joinsStep at h
  simp only [dpopD] at h
  split at h
  · split at h
    · split at h
      · simp at h
      · split at h
        · simp at h
        · split at h
          · simp at h
          · injection h with h1
            exact ⟨_, h1.symm⟩
    · simp at h
  · split at h
    · split at h
      · simp at h
      · injection h with h1
        exact ⟨_, h1.symm⟩
    · simp at h

/-- C10: when a cube's own "datastore" value is falsy (empty string,
None, or the key absent), a successful resolution carries the
model-level datastore value; the cube's value is kept only when
truthy. -/
theorem c10_falsy_datastore_inherits_model_value
    (p : Provider) (name : String) (kvs res : Dict) (p' : Provider)
    (hc : lookupJ (.str name) p.cubes_metadata = some (.obj kvs))
    (hr : cube_metadata p name = (.ok res, p')) :
    dget res "datastore" =
      some (if pyTruthy ((dget kvs "datastore").getD .null) = true
            then (dget kvs "datastore").getD .null
            else (dget p.metadata "datastore").getD .null) := by
  simp only [cube_metadata, hc] at hr
  rcases hbo : browserOptionsStep p.metadata (datastoreStep p.metadata kvs) with ⟨rb, m'⟩
  rw [hbo] at hr
  cases rb with
  | error e => simp at hr
  | ok md2 =>
      dsimp only [] at hr
      cases hms : mappingsStep m' md2 with
      | error e => rw [hms] at hr; simp at hr
      | ok md3 =>
          rw [hms] at hr
          dsimp only [] at hr
          cases hjs : joinsStep m' name md3 with
          | error e => rw [hjs] at hr; simp at hr
          | ok md4 =>
              rw [hjs] at hr
              dsimp only [] at hr
              rw [Prod.mk.injEq] at hr
              obtain ⟨h1, _⟩ := hr
              injection h1 with h1
              subst h1
              obtain ⟨v2, h2⟩ := browserOptionsStep_ok_shape _ _ _ _ hbo
              obtain ⟨v3, h3⟩ := mappingsStep_ok_shape _ _ _ hms
              obtain ⟨v4, h4⟩ := joinsStep_ok_shape _ _ _ _ hjs
              subst h4
              subst h3
              subst h2
              rw [dget_dset]
              rw [if_neg (by decide : ¬ ("datastore" : String) = "joins")]
              rw [dget_dremove]
              rw [if_neg (by decide : ¬ ("datastore" : String) = "joins")]
              rw [dget_dset]
              rw [if_neg (by decide : ¬ ("datastore" : String) = "mappings")]
              rw [dget_dremove]
              rw [if_neg (by decide : ¬ ("datastore" : String) = "mappings")]
              rw [dget_dset]
              rw [if_neg (by decide : ¬ ("datastore" : String) = "browser_options")]
              exact dget_datastoreStep_self p.metadata kvs

/-- The join validation loop over a raw join list only raises
missing-master, missing-detail or type errors — never the
missing-join-name or duplicate-join-name errors. -/
theorem validateJoinsRaw_error_kinds (cited : Json) :
    ∀ (l : List Json) (e : PErr), validateJoinsRaw cited l = .error e →
      ¬ e = .missingJoinName ∧ ∀ n, ¬ e = .duplicateJoinName n := by
  intro l
  induction l with
  | nil =>
      intro e he
      exact absurd he (by simp [validateJoinsRaw])
  | cons x rest ih =>
      intro e he
      cases x with
      | obj d =>
          unfold validateJoinsRaw at he
          split at he
          · injection he with he
            subst he
            exact ⟨by simp, fun n => by simp⟩
          · split at he
            · injection he with he
              subst he
              exact ⟨by simp, fun n => by simp⟩
            · exact ih e he
      | null =>
          injection he with he
          subst he
          exact ⟨by simp, fun n => by simp⟩
      | bool b =>
          injection he with he
          subst he
          exact ⟨by simp, fun n => by simp⟩
      | num n =>
          injection he with he
          subst he
          exact ⟨by simp, fun n => by simp⟩
      | str s =>
          injection he with he
          subst he
          exact ⟨by simp, fun n => by simp⟩
      | arr xs =>
          injection he with he
          subst he
          exact ⟨by simp, fun n => by simp⟩

/-- When either join list is falsy the joins section keeps the cube's
join list unchanged and never raises the index-construction errors. -/
theorem joinsStep_skip (mm : Dict) (nm : String) (md : Dict)
    (hskip : pyTruthy ((dget mm "joins").getD (.arr [])) = false ∨
             pyTruthy ((dget md "joins").getD (.arr [])) = false) :
    (∀ md4, joinsStep mm nm md = .ok md4 →
        dget md4 "joins" = some ((dget md "joins").getD (.arr []))) ∧
    (∀ e, joinsStep mm nm md = .error e →
        ¬ e = .missingJoinName ∧ ∀ n, ¬ e = .duplicateJoinName n) := by
  have hand : (pyTruthy ((dget md "joins").getD (.arr [])) &&
               pyTruthy ((dget mm "joins").getD (.arr []))) = false := by
    rcases hskip with h | h <;> simp [h]
  constructor
  · intro md4 h
    unfold joinsStep at h
    dsimp only [dpopD] at h
    rw [hand] at h
    rw [if_neg (by simp)] at h
    rcases hcj : (dget md "joins").getD (.arr []) with _ | b | n | s | cjs | kvs <;>
      rw [hcj] at h
    · exact absurd h (by simp)
    · exact absurd h (by simp)
    · exact absurd h (by simp)
    · exact absurd h (by simp)
    · dsimp only [] at h
      split at h
      · exact absurd h (by simp)
      · injection h with h1
        subst h1
        rw [dget_dset, if_pos rfl]
    · exact absurd h (by simp)
  · intro e he
    unfold joinsStep at he
    dsimp only [dpopD] at he
    rw [hand] at he
    rw [if_neg (by simp)] at he
    rcases hcj : (dget md "joins").getD (.arr []) with _ | b | n | s | cjs | kvs <;>
      rw [hcj] at he
    · injection he with he; subst he; exact ⟨by simp, fun n => by simp⟩
    · injection he with he; subst he; exact ⟨by simp, fun n => by simp⟩
    · injection he with he; subst he; exact ⟨by simp, fun n => by simp⟩
    · injection he with he; subst he; exact ⟨by simp, fun n => by simp⟩
    · dsimp only [] at he
      split at he
      · injection he with he
        subst he
        exact validateJoinsRaw_error_kinds (.str nm) cjs _ (by assumption)
      · exact absurd he (by simp)
    · injection he with he; subst he; exact ⟨by simp, fun n => by simp⟩

/-- C8: a model whose join list contains an unnamed join still
resolves a cube that has no joins of its own: the resolved joins are
the empty list and no missing-join-name error is raised; in general,
when either side's join list is falsy the joins section passes the
cube's join list through unchanged and the name-index errors cannot
occur. -/
theorem c8_empty_side_joins_pass_through :
    (∀ (p : Provider) (name : String) (kvs md2 m' md3 : Dict),
       lookupJ (.str name) p.cubes_metadata = some (.obj kvs) →
       dget kvs "joins" = none →
       browserOptionsStep p.metadata (datastoreStep p.metadata kvs) = (.ok md2, m') →
       mappingsStep m' md2 = .ok md3 →
       ∃ res, cube_metadata p name = (.ok res, { p with metadata := m' }) ∧
         dget res "joins" = some (.arr []))
  ∧ (∀ (mm : Dict) (nm : String) (md : Dict),
       (pyTruthy ((dget mm "joins").getD (.arr [])) = false ∨
        pyTruthy ((dget md "joins").getD (.arr [])) = false) →
       (∀ md4, joinsStep mm nm md = .ok md4 →
           dget md4 "joins" = some ((dget md "joins").getD (.arr []))) ∧
       (∀ e, joinsStep mm nm md = .error e →
           ¬ e = .missingJoinName ∧ ∀ n, ¬ e = .duplicateJoinName n)) := by
  constructor
  · intro p name kvs md2 m' md3 hc hnoj hbo hms
    obtain ⟨v2, h2⟩ := browserOptionsStep_ok_shape _ _ _ _ hbo
    obtain ⟨v3, h3⟩ := mappingsStep_ok_shape _ _ _ hms
    have hj3 : dget md3 "joins" = none := by
      subst h3
      subst h2
      rw [dget_dset, if_neg (by decide), dget_dremove, if_neg (by decide),
        dget_dset, if_neg (by decide),
        dget_datastoreStep_other _ _ _ (by decide), hnoj]
    have hjs : joinsStep m' name md3
        = .ok (dset (dremove md3 "joins") "joins" (.arr [])) := by
      unfold joinsStep
      dsimp only [dpopD]
      rw [hj3]
      simp [pyTruthy, validateJoinsRaw]
    refine ⟨dset (dremove md3 "joins") "joins" (.arr []), ?_, ?_⟩
    · simp only [cube_metadata, hc, hbo]
      try dsimp only []
      rw [hms]
      try dsimp only []
      rw [hjs]
    · rw [dget_dset, if_pos rfl]
  · intro mm nm md hskip
    exact joinsStep_skip mm nm md hskip

/-- C8 witness: the unnamed-model-join, no-cube-joins scenario at the
concrete provider `c8p`. -/
theorem c8_empty_side_joins_witness :
    (lookupJ (.str "c") c8p.cubes_metadata = some (.obj [("name", .str "c")]) ∧
     dget [("name", Json.str "c")] "joins" = none ∧
     browserOptionsStep c8p.metadata (datastoreStep c8p.metadata [("name", .str "c")])
       = (.ok c8md2, c8p.metadata) ∧
     mappingsStep c8p.metadata c8md2 = .ok c8md3) ∧
    (∃ res, cube_metadata c8p "c" = (.ok res, { c8p with metadata := c8p.metadata }) ∧
       dget res "joins" = some (.arr [])) :=
  ⟨⟨rfl, rfl, rfl, rfl⟩,
   c8_empty_side_joins_pass_through.1 c8p "c" [("name", .str "c")] c8md2
     c8p.metadata c8md3 rfl rfl rfl rfl⟩

/-- When some model join lacks a name and the names seen before it are
distinct, the index construction fails with the missing-name error. -/
theorem buildJoinMapAux_missing :
    ∀ (l : List Json) (acc : List (Json × Json)),
      (∀ j ∈ l, isObjJ j = true) →
      (∃ j ∈ l, joinName j = none) →
      (joinNames l).Nodup →
      (∀ n ∈ joinNames l, lookupJ n acc = none) →
      buildJoinMapAux acc l = .error .missingJoinName := by
  intro l
  induction l with
  | nil =>
      intro acc _ hex _ _
      simp at hex
  | cons j rest ih =>
      intro acc hobj hex hnd hfresh
      cases j with
      | obj kvs =>
          unfold buildJoinMapAux
          cases hn : dget kvs "name" with
          | none => rfl
          | some jn =>
              have hjn : jn ∈ joinNames (Json.obj kvs :: rest) := by
                simp [joinNames, List.filterMap_cons, joinName, hn]
              have hnone := hfresh jn hjn
              dsimp only []
              rw [hnone]
              rw [if_neg (by simp)]
              have hnames : joinNames (Json.obj kvs :: rest) = jn :: joinNames rest := by
                simp [joinNames, List.filterMap_cons, joinName, hn]
              rw [hnames] at hnd hfresh
              apply ih
              · intro x hx
                exact hobj x (by simp [hx])
              · rcases hex with ⟨j₀, hj₀, hname₀⟩
                rcases List.mem_cons.1 hj₀ with rfl | hj₀'
                · rw [show joinName (Json.obj kvs) = dget kvs "name" from rfl, hn] at hname₀
                  exact absurd hname₀ (by simp)
                · exact ⟨j₀, hj₀', hname₀⟩
              · exact (List.nodup_cons.1 hnd).2
              · intro n hnmem
                rw [lookupJ_append]
                have h1 : lookupJ n acc = none := hfresh n (by simp [hnmem])
                have h2 : ¬ jn = n := by
                  intro hh
                  exact (List.nodup_cons.1 hnd).1 (hh ▸ hnmem)
                rw [h1, lookupJ_cons, if_neg h2, lookupJ_nil]
                rfl
      | null => exact absurd (hobj Json.null (by simp)) (by simp [isObjJ])
      | bool b => exact absurd (hobj (Json.bool b) (by simp)) (by simp [isObjJ])
      | num n => exact absurd (hobj (Json.num n) (by simp)) (by simp [isObjJ])
      | str s => exact absurd (hobj (Json.str s) (by simp)) (by simp [isObjJ])
      | arr xs => exact absurd (hobj (Json.arr xs) (by simp)) (by simp [isObjJ])

/-- When all model joins are named but two share a name, the index
construction fails with a duplicate-name error. -/
theorem buildJoinMapAux_dup :
    ∀ (l : List Json) (acc : List (Json × Json)),
      (∀ j ∈ l, isObjJ j = true) →
      (∀ j ∈ l, (joinName j).isSome = true) →
      (acc.map Prod.fst).Nodup →
      ¬ (acc.map Prod.fst ++ joinNames l).Nodup →
      ∃ n, buildJoinMapAux acc l = .error (.duplicateJoinName n) := by
  intro l
  induction l with
  | nil =>
      intro acc _ _ hacc hnd
      exact absurd (by simpa [joinNames] using hacc) hnd
  | cons j rest ih =>
      intro acc hobj hnamed hacc hnd
      cases j with
      | obj kvs =>
          obtain ⟨jn, hn⟩ : ∃ jn, dget kvs "name" = some jn := by
            have hs := hnamed (Json.obj kvs) (by simp)
            rw [show joinName (Json.obj kvs) = dget kvs "name" from rfl] at hs
            exact Option.isSome_iff_exists.mp hs
          unfold buildJoinMapAux
          rw [hn]
          dsimp only []
          by_cases hl : (lookupJ jn acc).isSome = true
          · rw [if_pos hl]
            exact ⟨jn, rfl⟩
          · rw [if_neg hl]
            have hlnone : lookupJ jn acc = none := by
              cases hlv : lookupJ jn acc with
              | none => rfl
              | some v => rw [hlv] at hl; simp at hl
            have hjnotin : jn ∉ acc.map Prod.fst :=
              (lookupJ_eq_none_iff acc jn).1 hlnone
            have hnames : joinNames (Json.obj kvs :: rest) = jn :: joinNames rest := by
              simp [joinNames, List.filterMap_cons, joinName, hn]
            rw [hnames] at hnd
            apply ih
            · intro x hx
              exact hobj x (by simp [hx])
            · intro x hx
              exact hnamed x (by simp [hx])
            · simp only [List.map_append, List.map_cons, List.map_nil]
              rw [List.nodup_append]
              refine ⟨hacc, List.nodup_singleton jn, ?_⟩
              intro a ha hb
              rw [List.mem_singleton] at hb
              subst hb
              exact hjnotin ha
            · intro hcontra
              apply hnd
              rw [List.append_cons] at hcontra ⊢
              simpa using hcontra
      | null => exact absurd (hobj Json.null (by simp)) (by simp [isObjJ])
      | bool b => exact absurd (hobj (Json.bool b) (by simp)) (by simp [isObjJ])
      | num n => exact absurd (hobj (Json.num n) (by simp)) (by simp [isObjJ])
      | str s => exact absurd (hobj (Json.str s) (by simp)) (by simp [isObjJ])
      | arr xs => exact absurd (hobj (Json.arr xs) (by simp)) (by simp [isObjJ])

/-- C7: when both the model and the cube define non-empty join lists,
the model-join index construction fails with the missing-join-name
error if a model join lacks a "name" key (the names before it being
distinct), and with a duplicate-join-name error if all are named but
two share a name; shown in general over the index builder and
end-to-end on concrete providers. -/
theorem c7_model_join_index_errors :
    (∀ mjoins : List Json,
       (∀ j ∈ mjoins, isObjJ j = true) →
       (∃ j ∈ mjoins, joinName j = none) →
       (joinNames mjoins).Nodup →
       buildJoinMap mjoins = .error .missingJoinName)
  ∧ (∀ mjoins : List Json,
       (∀ j ∈ mjoins, isObjJ j = true) →
       (∀ j ∈ mjoins, (joinName j).isSome = true) →
       ¬ (joinNames mjoins).Nodup →
       ∃ n, buildJoinMap mjoins = .error (.duplicateJoinName n))
  ∧ (mkProvider c7metaMissing).map (fun p => (cube_metadata p "c").1)
       = .ok (.error .missingJoinName)
  ∧ (mkProvider c7metaDup).map (fun p => (cube_metadata p "c").1)
       = .ok (.error (.duplicateJoinName (.str "j1"))) := by
  refine ⟨?_, ?_, rfl, rfl⟩
  · intro mjoins hobj hex hnd
    exact buildJoinMapAux_missing mjoins [] hobj hex hnd (fun n _ => rfl)
  · intro mjoins hobj hnamed hnd
    exact buildJoinMapAux_dup mjoins [] hobj hnamed (by simp) (by simpa using hnd)

/-- C7 witness: the two index-construction errors at one-element and
two-element concrete model join lists. -/
theorem c7_model_join_index_errors_witness :
    buildJoinMap [Json.obj [("master", .str "m")]] = .error .missingJoinName ∧
    (∃ n, buildJoinMap [Json.obj [("name", .str "j1")], Json.obj [("name", .str "j1")]]
        = .error (.duplicateJoinName n)) :=
  ⟨c7_model_join_index_errors.1 [Json.obj [("master", .str "m")]]
     (by decide) ⟨Json.obj [("master", .str "m")], by simp, rfl⟩
     (by decide),
   c7_model_join_index_errors.2.1
     [Json.obj [("name", .str "j1")], Json.obj [("name", .str "j1")]]
     (by decide) (by decide) (by decide)⟩

/-- C4: a cube join whose truthy name matches the model join index
merges as the model join's fields overwritten field-by-field by the
cube join's (cube wins, un-overridden model fields preserved);
unmatched or unnamed cube joins pass through verbatim; the merged list
follows the cube's own joins pointwise in order; and the spec's
scenario resolves end-to-end to master a.id with detail b.aid2. -/
theorem c4_cube_join_override :
    (∀ (mmap : List (Json × Json)) (kvs mj : Dict) (nm : Json),
       dget kvs "name" = some nm → pyTruthy nm = true →
       lookupJ nm mmap = some (.obj mj) →
       (kvs.map Prod.fst).Nodup →
       mergeOneJoin mmap (.obj kvs) = .ok (dupdate mj kvs) ∧
       ∀ k, dget (dupdate mj kvs) k = ((dget kvs k).orElse (fun _ => dget mj k)))
  ∧ (∀ (mmap : List (Json × Json)) (kvs : Dict),
       (pyTruthy ((dget kvs "name").getD .null) = false ∨
        lookupJ ((dget kvs "name").getD .null) mmap = none) →
       (kvs.map Prod.fst).Nodup →
       mergeOneJoin mmap (.obj kvs) = .ok kvs)
  ∧ (∀ (mmap : List (Json × Json)) (js : List Json) (rs : List Dict),
       js.mapM (mergeOneJoin mmap) = .ok rs →
       rs.length = js.length ∧
         ∀ i (h : i < js.length) (h' : i < rs.length),
           mergeOneJoin mmap js[i] = .ok rs[i])
  ∧ (mkProvider c4meta).map (fun p => (cube_metadata p "c").1)
       = .ok (.ok c4resolved) := by
  refine ⟨?_, ?_, ?_, rfl⟩
  · intro mmap kvs mj nm hname htruthy hlook hnd
    constructor
    · unfold mergeOneJoin
      dsimp only []
      rw [hname]
      simp only [Option.getD_some]
      rw [if_pos htruthy, hlook]
    · intro k
      exact dget_dupdate mj kvs k hnd
  · intro mmap kvs hskip hnd
    unfold mergeOneJoin
    dsimp only []
    rcases hskip with h | h
    · rw [if_neg (by rw [h]; simp)]
      dsimp only []
      rw [dupdate_nil kvs hnd]
    · by_cases ht : pyTruthy ((dget kvs "name").getD .null) = true
      · rw [if_pos ht, h]
        dsimp only []
        rw [dupdate_nil kvs hnd]
      · rw [if_neg ht]
        dsimp only []
        rw [dupdate_nil kvs hnd]
  · intro mmap js rs h
    exact mapM_ok_pointwise (mergeOneJoin mmap) js rs h

/-- C4 witness: the matched-name merge at the spec's scenario join,
with the cube winning on "detail" and preserving the model's
"master". -/
theorem c4_cube_join_override_witness :
    (dget c4cubeJoin "name" = some (.str "j1") ∧
     pyTruthy (.str "j1") = true ∧
     lookupJ (.str "j1") c4mmap = some (.obj c4modelJoin) ∧
     (c4cubeJoin.map Prod.fst).Nodup) ∧
    (mergeOneJoin c4mmap (.obj c4cubeJoin) = .ok (dupdate c4modelJoin c4cubeJoin) ∧
     dget (dupdate c4modelJoin c4cubeJoin) "detail"
       = ((dget c4cubeJoin "detail").orElse (fun _ => dget c4modelJoin "detail")) ∧
     dget (dupdate c4modelJoin c4cubeJoin) "master"
       = ((dget c4cubeJoin "master").orElse (fun _ => dget c4modelJoin "master"))) :=
  ⟨⟨rfl, rfl, rfl, by decide⟩,
   (c4_cube_join_override.1 c4mmap c4cubeJoin c4modelJoin (.str "j1")
      rfl rfl rfl (by decide)).1,
   (c4_cube_join_override.1 c4mmap c4cubeJoin c4modelJoin (.str "j1")
      rfl rfl rfl (by decide)).2 "detail",
   (c4_cube_join_override.1 c4mmap c4cubeJoin c4modelJoin (.str "j1")
      rfl rfl rfl (by decide)).2 "master"⟩

/-- C9: the provider-default merge concatenates the cube, dimension
and join lists default-then-user, key-wise updates the mappings with
the user's keys winning, and overlays every other top-level key of the
user metadata over the default's. -/
theorem c9_provider_default_merge (D U : Dict)
    (hU : (U.map Prod.fst).Nodup)
    (hUM : ((jmapOf U "mappings").map Prod.fst).Nodup)
    (hDt : WTmeta D = true) (hUt : WTmeta U = true) :
    ∃ M, merge_metadata D U = .ok M ∧
      jlistOf M "cubes" = jlistOf D "cubes" ++ jlistOf U "cubes" ∧
      jlistOf M "dimensions" = jlistOf D "dimensions" ++ jlistOf U "dimensions" ∧
      jlistOf M "joins" = jlistOf D "joins" ++ jlistOf U "joins" ∧
      (∀ k, dget (jmapOf M "mappings") k =
         ((dget (jmapOf U "mappings") k).orElse
            (fun _ => dget (jmapOf D "mappings") k))) ∧
      (∀ k, ¬ k = "cubes" → ¬ k = "dimensions" → ¬ k = "joins" → ¬ k = "mappings" →
         dget M k = ((dget U k).orElse (fun _ => dget D k))) := by
  have hOn : ((mergeSpineO U).map Prod.fst).Nodup := by
    unfold mergeSpineO
    exact nodup_keys_dremove _ _ (nodup_keys_dremove _ _
      (nodup_keys_dremove _ _ (nodup_keys_dremove _ _ hU)))
  have hOget : ∀ k, ¬ k = "cubes" → ¬ k = "dimensions" → ¬ k = "joins" →
      ¬ k = "mappings" → dget (mergeSpineO U) k = dget U k := by
    intro k h1 h2 h3 h4
    unfold mergeSpineO
    rw [dget_dremove, if_neg h4, dget_dremove, if_neg h3, dget_dremove, if_neg h2,
      dget_dremove, if_neg h1]
  have hOnone : ∀ k, (k = "cubes" ∨ k = "dimensions" ∨ k = "joins" ∨ k = "mappings") →
      dget (mergeSpineO U) k = none := by
    intro k hk
    unfold mergeSpineO
    rw [dget_dremove, dget_dremove, dget_dremove, dget_dremove]
    rcases hk with rfl | rfl | rfl | rfl <;> simp
  have hMc : dget (mergeSpineM D U) "cubes" =
      (if !(jlistOf D "cubes" ++ jlistOf U "cubes").isEmpty
       then some (.arr (jlistOf D "cubes" ++ jlistOf U "cubes")) else none) := by
    unfold mergeSpineM
    dsimp only []
    rw [dget_cond_dset _ _ _ _ _ (by decide), dget_dremove, if_neg (by decide),
      dget_cond_dset _ _ _ _ _ (by decide), dget_dremove, if_neg (by decide),
      dget_cond_dset _ _ _ _ _ (by decide), dget_dremove, if_neg (by decide),
      dget_cond_dset_self, dget_dremove, if_pos rfl]
  have hMd : dget (mergeSpineM D U) "dimensions" =
      (if !(jlistOf D "dimensions" ++ jlistOf U "dimensions").isEmpty
       then some (.arr (jlistOf D "dimensions" ++ jlistOf U "dimensions")) else none) := by
    unfold mergeSpineM
    dsimp only []
    rw [dget_cond_dset _ _ _ _ _ (by decide), dget_dremove, if_neg (by decide),
      dget_cond_dset _ _ _ _ _ (by decide), dget_dremove, if_neg (by decide),
      dget_cond_dset_self, dget_dremove, if_pos rfl]
  have hMj : dget (mergeSpineM D U) "joins" =
      (if !(jlistOf D "joins" ++ jlistOf U "joins").isEmpty
       then some (.arr (jlistOf D "joins" ++ jlistOf U "joins")) else none) := by
    unfold mergeSpineM
    dsimp only []
    rw [dget_cond_dset _ _ _ _ _ (by decide), dget_dremove, if_neg (by decide),
      dget_cond_dset_self, dget_dremove, if_pos rfl]
  have hMm : dget (mergeSpineM D U) "mappings" =
      (if !(dupdate (jmapOf D "mappings") (jmapOf U "mappings")).isEmpty
       then some (.obj (dupdate (jmapOf D "mappings") (jmapOf U "mappings"))) else none) := by
    unfold mergeSpineM
    dsimp only []
    rw [dget_cond_dset_self, dget_dremove, if_pos rfl]
  have hMk : ∀ k, ¬ k = "cubes" → ¬ k = "dimensions" → ¬ k = "joins" →
      ¬ k = "mappings" → dget (mergeSpineM D U) k = dget D k := by
    intro k h1 h2 h3 h4
    unfold mergeSpineM
    dsimp only []
    rw [dget_cond_dset _ _ _ _ _ h4, dget_dremove, if_neg h4,
      dget_cond_dset _ _ _ _ _ h3, dget_dremove, if_neg h3,
      dget_cond_dset _ _ _ _ _ h2, dget_dremove, if_neg h2,
      dget_cond_dset _ _ _ _ _ h1, dget_dremove, if_neg h1]
  refine ⟨dupdate (mergeSpineM D U) (mergeSpineO U),
    merge_metadata_spine D U hDt hUt, ?_, ?_, ?_, ?_, ?_⟩
  · apply jlistOf_of_dget
    rw [dget_dupdate _ _ _ hOn, hOnone "cubes" (by simp), hMc]
    rfl
  · apply jlistOf_of_dget
    rw [dget_dupdate _ _ _ hOn, hOnone "dimensions" (by simp), hMd]
    rfl
  · apply jlistOf_of_dget
    rw [dget_dupdate _ _ _ hOn, hOnone "joins" (by simp), hMj]
    rfl
  · have hmap : jmapOf (dupdate (mergeSpineM D U) (mergeSpineO U)) "mappings"
        = dupdate (jmapOf D "mappings") (jmapOf U "mappings") := by
      apply jmapOf_of_dget
      rw [dget_dupdate _ _ _ hOn, hOnone "mappings" (by simp), hMm]
      rfl
    rw [hmap]
    intro k
    exact dget_dupdate _ _ k hUM
  · intro k h1 h2 h3 h4
    rw [dget_dupdate _ _ _ hOn, hOget k h1 h2 h3 h4, hMk k h1 h2 h3 h4]

/-- C9 witness: the merge at a two-key default and user document with
overlapping cubes, mappings and scalar keys. -/
theorem c9_provider_default_merge_witness :
    (([("cubes", Json.arr [Json.str "uc"]), ("x", Json.num 2), ("y", Json.num 3),
       ("mappings", Json.obj [("b", Json.num 9)])].map
        (Prod.fst (α := String) (β := Json))).Nodup ∧
     WTmeta [("cubes", Json.arr [Json.str "dc"]), ("x", Json.num 1),
       ("mappings", Json.obj [("a", Json.num 1), ("b", Json.num 2)])] = true ∧
     WTmeta [("cubes", Json.arr [Json.str "uc"]), ("x", Json.num 2), ("y", Json.num 3),
       ("mappings", Json.obj [("b", Json.num 9)])] = true) ∧
    (∃ M, merge_metadata
        [("cubes", Json.arr [Json.str "dc"]), ("x", Json.num 1),
         ("mappings", Json.obj [("a", Json.num 1), ("b", Json.num 2)])]
        [("cubes", Json.arr [Json.str "uc"]), ("x", Json.num 2), ("y", Json.num 3),
         ("mappings", Json.obj [("b", Json.num 9)])] = .ok M ∧
      jlistOf M "cubes" = [Json.str "dc"] ++ [Json.str "uc"] ∧
      dget M "x" = some (Json.num 2)) := by
  refine ⟨⟨by decide, by decide, by decide⟩, ?_⟩
  obtain ⟨M, hM, hc, _, _, _, hother⟩ :=
    c9_provider_default_merge
      [("cubes", Json.arr [Json.str "dc"]), ("x", Json.num 1),
       ("mappings", Json.obj [("a", Json.num 1), ("b", Json.num 2)])]
      [("cubes", Json.arr [Json.str "uc"]), ("x", Json.num 2), ("y", Json.num 3),
       ("mappings", Json.obj [("b", Json.num 9)])]
      (by decide) (by decide) (by decide) (by decide)
  refine ⟨M, hM, ?_, ?_⟩
  · rw [hc]
    rfl
  · rw [hother "x" (by decide) (by decide) (by decide) (by decide)]
    rfl

/-- C10 witness: a cube whose datastore is the empty string inherits
the model's "ds1". -/
theorem c10_falsy_datastore_witness :
    (lookupJ (.str "c") c10p.cubes_metadata
       = some (.obj [("name", .str "c"), ("datastore", .str "")]) ∧
     cube_metadata c10p "c" = (.ok c10res, c10p)) ∧
    dget c10res "datastore" = some (.str "ds1") :=
  ⟨⟨rfl, rfl⟩,
   c10_falsy_datastore_inherits_model_value c10p "c"
     [("name", .str "c"), ("datastore", .str "")] c10res c10p rfl rfl⟩

end Cubes
